import Mathlib

/-!
Verification of the Don't Blink reaction game.

This file gives a shallow embedding of the two core pieces of the
repository — the leaderboard rank computation (`leaderboard.js`) and the
per-round timing state machine (`game.js`) — and proves the behavioural
properties stated in the design document against that embedding.

Conventions of the embedding:
* scores and timestamps are exact numbers (`Int` for stored scores and
  recorded round times, `ℚ` for clock readings), with JavaScript
  `Math.round` rendered as Mathlib's `round` (both are `⌊x + 1/2⌋`);
* the asynchronous Firestore calls are external collaborators: each
  leaderboard operation takes the outcome of its backend calls as an
  explicit `Option` argument, `none` standing for a thrown/failed call
  (the `try`/`catch` of the source then yields the degraded result);
* the timer machinery of `game.js` is a small-step event system: the
  pending one-shot timers of the class are flags in the state, firing a
  timer is an event, and `clearTimeout` removes the flag, so a cancelled
  timer can never fire.

The rational-number operations of the standard library are restored to
their definitional reducibility so that concrete machine runs evaluate
inside `decide`.
-/

set_option allowUnsafeReducibility true
attribute [local semireducible] Rat.sub Rat.add Rat.mul Rat.div Rat.inv

namespace DontBlink

/-! ## Leaderboard data model (leaderboard.js) -/

/-- One stored score document as read back by `peek` (`d.data()`:
no document id). -/
structure Entry where
  name : String
  score : Int
deriving DecidableEq

/-- One stored score document together with its Firestore document id
(`{ ...d.data(), ts: d.id }`), as used by `submit` and `getTop`. -/
structure SEntry where
  name : String
  score : Int
  ts : Nat
deriving DecidableEq

/-- An entry decorated with its computed leaderboard rank
(`{ ...e, rank }`). -/
structure Ranked (α : Type) where
  entry : α
  rank : Nat
deriving DecidableEq

/-- Result of `peek`: `{ rank, isTied }`. -/
structure RankResult where
  rank : Nat
  isTied : Bool
deriving DecidableEq

/-- Result of `submit`: `{ rank, isTied, ts }`. -/
structure SubmitResult where
  rank : Nat
  isTied : Bool
  ts : Nat
deriving DecidableEq

/-- The leaderboard window capacity (`const SIZE = 100`). -/
def SIZE : Nat := 100

/-- Tail-recursive worker for `withRanks`.  It carries the running
`rank` variable of the source, the current index `i`, and the score of
the previous element (`a[i - 1].score`, `none` at the head), and
reproduces `if (i > 0 && e.score !== a[i-1].score) rank = i + 1` at each
element. -/
def withRanksGo (sc : α → Int) (rank : Nat) (i : Nat) (prev : Option Int) :
    List α → List (Ranked α)
  | [] => []
  | e :: rest =>
    let r := if 0 < i ∧ some (sc e) ≠ prev then i + 1 else rank
    ⟨e, r⟩ :: withRanksGo sc r (i + 1) (some (sc e)) rest

/-- Standard (1-2-2-4) competition ranking of `leaderboard.js`:
`withRanks(docs)` maps every document to itself plus a `rank`, where the
running rank starts at 1 and jumps to `i + 1` whenever the score differs
from the previous document's score.  The score projection `sc` stands
for the duck-typed `.score` access of the source. -/
def withRanks (sc : α → Int) (docs : List α) : List (Ranked α) :=
  withRanksGo sc 1 0 none docs

/-- Score of the window's worst entry, `docs[docs.length - 1].score`
(only ever read when the window is known non-empty). -/
def worstScore (docs : List Entry) : Int :=
  ((docs.get? (docs.length - 1)).map Entry.score).getD 0

/-- Body of `peek` once the query succeeded: reject a score strictly
worse than the worst entry of a full window, otherwise count the
strictly better entries and detect ties. -/
def peekCore (docs : List Entry) (q : Int) : Option RankResult :=
  if SIZE ≤ docs.length ∧ worstScore docs < q then none
  else
    some { rank := (docs.filter (fun d => decide (d.score < q))).length + 1,
           isTied := docs.any (fun d => decide (d.score = q)) }

/-- `peek(score)`.  `qres` is the outcome of the
`orderBy('score').limit(SIZE)` query: `none` when the backend threw, in
which case the `catch` branch returns `null`. -/
def peek (qres : Option (List Entry)) (q : Int) : Option RankResult :=
  match qres with
  | none => none
  | some docs => peekCore docs q

/-- `submit(name, score)`.  `insertRes` is the outcome of
`col().add(...)` (the fresh document id, or `none` on failure), `qres`
the outcome of the subsequent re-query of the top-`SIZE` window; either
failure is caught and becomes `null`.  When the fresh id is not found in
the re-queried window the entry missed the cut and the result is `null`;
otherwise the rank counts the strictly better window entries and a tie
is more than one window entry carrying the submitted score. -/
def submit (insertRes : Option Nat) (qres : Option (List SEntry))
    (_listedName : String) (score : Int) : Option SubmitResult :=
  match insertRes with
  | none => none
  | some refId =>
    match qres with
    | none => none
    | some docs =>
      if docs.any (fun d => decide (d.ts = refId)) then
        some { rank := (docs.filter (fun d => decide (d.score < score))).length + 1,
               isTied := decide (1 < (docs.filter (fun d => decide (d.score = score))).length),
               ts := refId }
      else none

/-- `getTop(n)`: the top-`SIZE` window with standard ranks applied,
truncated to `n` rows; a failed query degrades to the empty list. -/
def getTop (qres : Option (List SEntry)) (n : Nat) : List (Ranked SEntry) :=
  match qres with
  | none => []
  | some docs => (withRanks SEntry.score docs).take n

/-- Score of the `j`-th document of a window (0-based). -/
def scoreAt (sc : α → Int) (l : List α) (j : Nat) : Int :=
  ((l.get? j).map sc).getD 0

/-- Rank of the `j`-th row of a ranked list (0-based). -/
def rankAt (rl : List (Ranked α)) (j : Nat) : Nat :=
  ((rl.get? j).map Ranked.rank).getD 0

/-- The worked example of the spec: ascending scores 10, 10, 20, 30. -/
def exampleDocs : List Entry :=
  [⟨"ace", 10⟩, ⟨"bo", 10⟩, ⟨"cy", 20⟩, ⟨"dee", 30⟩]

/-- The window of the spec's end-to-end scenario D. -/
def windowD : List Entry := [⟨"pat", 100⟩, ⟨"quinn", 100⟩, ⟨"rae", 150⟩]

/-! ## Round state machine (game.js)

The `DontBlink` class keeps `state ∈ {idle, waiting, ready, paused}`,
a 1-based `roundNum`, the list `scores` of recorded round times, and
`changeAt`, the clock reading of the real colour change.  Four one-shot
timers may be pending (`_waitTimer`, `_fakeTimer`, `_fakeRevert`,
`_pauseTimer`); each is a flag here, and the `_pauseTimer` flag also
records which continuation was scheduled (retry after an early click,
or advance after a scored round).  An event is a user action or the
firing of one of those timers; firing a timer whose flag has been
cleared by `_clearAllTimers` is the identity (a cancelled `setTimeout`
callback never runs). -/

/-- The four values of `this.state`. -/
inductive GState
  | idle
  | waiting
  | ready
  | paused
deriving DecidableEq

/-- Which continuation the pending `_pauseTimer` carries: the
`_tooEarly` callback (retry the same round) or the `_recordScore`
callback (next round or results). -/
inductive PauseKind
  | retry
  | advance
deriving DecidableEq

/-- The machine state of one `DontBlink` instance (colours and other
purely visual fields are outside the model). -/
structure Game where
  state : GState
  roundNum : Int
  scores : List Int
  changeAt : Option ℚ
  avg : Int
  submitted : Bool
  saveDisabled : Bool
  myRank : Option SubmitResult
  myTs : Option Nat
  resultsShown : Bool
  pendingWait : Bool
  pendingFake : Bool
  pendingRevert : Bool
  pendingPause : Option PauseKind
deriving DecidableEq

/-- `CFG.ROUNDS`. -/
def ROUNDS : Nat := 5

/-- The freshly constructed instance. -/
def initGame : Game :=
  { state := GState.idle, roundNum := 0, scores := [], changeAt := none,
    avg := 0, submitted := false, saveDisabled := false, myRank := none,
    myTs := none, resultsShown := false, pendingWait := false,
    pendingFake := false, pendingRevert := false, pendingPause := none }

/-- `_clearAllTimers()`. -/
def clearTimers (g : Game) : Game :=
  { g with pendingWait := false, pendingFake := false,
           pendingRevert := false, pendingPause := none }

/-- `_beginRound()`: cancel everything pending, advance `roundNum`,
enter `waiting`, and schedule either the fake flash or the real change
(`hasFake` is the outcome of the `Math.random() < CFG.FAKE_CHANCE`
draw; the drawn delays do not matter, only which timer gets armed). -/
def beginRound (hasFake : Bool) (g : Game) : Game :=
  let g1 := clearTimers g
  let g2 := { g1 with roundNum := g1.roundNum + 1, state := GState.waiting }
  if hasFake then { g2 with pendingFake := true }
  else { g2 with pendingWait := true }

/-- `_triggerChange()`: enter `ready` and record the clock. -/
def triggerChange (now : ℚ) (g : Game) : Game :=
  { g with state := GState.ready, changeAt := some now }

/-- `_tooEarly()`: cancel everything, enter `paused`, and schedule the
retry continuation. -/
def tooEarly (g : Game) : Game :=
  { (clearTimers g) with state := GState.paused,
                         pendingPause := some PauseKind.retry }

/-- `_recordScore(ms)`: cancel everything, enter `paused`, append the
measured time, and schedule the advance continuation. -/
def recordScore (ms : Int) (g : Game) : Game :=
  { (clearTimers g) with state := GState.paused,
                         scores := g.scores ++ [ms],
                         pendingPause := some PauseKind.advance }

/-- `average` as computed in `_showResults`:
`Math.round(scores.reduce((a, b) => a + b, 0) / scores.length)`. -/
def averageOf (s : List Int) : Int :=
  round ((s.sum : ℚ) / (s.length : ℚ))

/-- `_showResults()`: compute the session average and reset the
results-screen state; note that `this.state` is left untouched. -/
def showResults (g : Game) : Game :=
  { g with avg := averageOf g.scores, submitted := false, myTs := none,
           myRank := none, resultsShown := true, saveDisabled := false }

/-- `_onGameClick()`: an early click in `waiting`, a scored click in
`ready`, ignored otherwise.  The elapsed time is
`Math.round(performance.now() - this.changeAt)`; a `null` `changeAt`
coerces to 0 in the source, hence `getD 0`. -/
def onGameClick (now : ℚ) (g : Game) : Game :=
  if g.state = GState.waiting then tooEarly g
  else if g.state = GState.ready then
    recordScore (round (now - (g.changeAt.getD 0))) g
  else g

/-- The events the machine reacts to: `_startGame`, a click/tap, the
four timer callbacks, and `_goToIntro` (reset).  Timer-callback events
carry the data their closures draw afresh (`hasFake` for the next
`_beginRound`, the clock for `_triggerChange`). -/
inductive Ev
  | start (hasFake : Bool)
  | click (now : ℚ)
  | fakeFires
  | waitFires (now : ℚ)
  | revertFires
  | pauseFires (hasFake : Bool)
  | reset
deriving DecidableEq

/-- One step of the machine.  Every timer event first consumes its
pending flag (a cleared flag means the callback was cancelled and the
event is the identity); the `_fakeTimer`, `_waitTimer` and
`_fakeRevert` callbacks then re-check `state === 'waiting'` exactly as
the source does, while the `_pauseTimer` callbacks act
unconditionally. -/
def step (g : Game) : Ev → Game
  | Ev.start hasFake =>
      beginRound hasFake { g with roundNum := 0, scores := [] }
  | Ev.click now => onGameClick now g
  | Ev.fakeFires =>
      if g.pendingFake then
        if g.state = GState.waiting then
          { g with pendingFake := false, pendingRevert := true,
                   pendingWait := true }
        else { g with pendingFake := false }
      else g
  | Ev.waitFires now =>
      if g.pendingWait then
        if g.state = GState.waiting then
          triggerChange now { g with pendingWait := false }
        else { g with pendingWait := false }
      else g
  | Ev.revertFires =>
      if g.pendingRevert then { g with pendingRevert := false } else g
  | Ev.pauseFires hasFake =>
      match g.pendingPause with
      | none => g
      | some PauseKind.retry =>
          beginRound hasFake
            { g with pendingPause := none, roundNum := g.roundNum - 1 }
      | some PauseKind.advance =>
          if ROUNDS ≤ g.scores.length then
            showResults { g with pendingPause := none }
          else beginRound hasFake { g with pendingPause := none }
  | Ev.reset => { (clearTimers g) with state := GState.idle }

/-- Run a list of events from the fresh instance. -/
def run (evs : List Ev) : Game :=
  evs.foldl step initGame

/-- The machine states reachable from the fresh instance. -/
inductive Reach : Game → Prop
  | base : Reach initGame
  | more (g : Game) (e : Ev) : Reach g → Reach (step g e)

/-- The fields of the machine a timer callback must not disturb when it
is stale: the mode, the round counter, the recorded times, the trigger
timestamp, the results screen and the computed average. -/
def machineView (g : Game) : GState × Int × List Int × Option ℚ × Bool × Int :=
  (g.state, g.roundNum, g.scores, g.changeAt, g.resultsShown, g.avg)

/-- Whitespace trimming of both ends, over the character list
(JavaScript `String.prototype.trim`, and extensionally the library's
`String.trim`, re-stated so that it evaluates by reduction). -/
def trimChars (l : List Char) : List Char :=
  ((l.dropWhile Char.isWhitespace).reverse.dropWhile Char.isWhitespace).reverse

/-- `this.$playerName.value.trim()`. -/
def jsTrim (s : String) : String := ⟨trimChars s.data⟩

/-- First half of `_submitToLeaderboard()`, up to the `await`: bail out
when already submitted or when the trimmed name is empty (a falsy
`name`); otherwise set the `_submitted` latch and disable the save
control *before* the store call, and report that the store call goes
ahead. -/
def submitBegin (g : Game) (nm : String) : Game × Bool :=
  if g.submitted then (g, false)
  else if jsTrim nm = "" then (g, false)
  else ({ g with submitted := true, saveDisabled := true }, true)

/-- Second half of `_submitToLeaderboard()`, after the `await`d store
call returned `r`: record the rank result, and the entry id when the
submission made the board (`if (result) this._myTs = result.ts`). -/
def submitFinish (g : Game) (r : Option SubmitResult) : Game :=
  { g with myRank := r,
           myTs := match r with
                   | some res => some res.ts
                   | none => g.myTs }

/-- The spec's end-to-end scenario A: five rounds, each a real trigger
followed by a scored click, with elapsed times 180, 150, 220, 190 and
160 ms. -/
def scenarioA : List Ev :=
  [Ev.start false, Ev.waitFires 1000, Ev.click 1180, Ev.pauseFires false,
   Ev.waitFires 2000, Ev.click 2150, Ev.pauseFires false,
   Ev.waitFires 3000, Ev.click 3220, Ev.pauseFires false,
   Ev.waitFires 4000, Ev.click 4190, Ev.pauseFires false,
   Ev.waitFires 5000, Ev.click 5160, Ev.pauseFires false]

/-- A round interrupted by a scored click: start, real trigger at
clock 100, click at clock 300. -/
def pausedTrace : List Ev :=
  [Ev.start false, Ev.waitFires 100, Ev.click 300]

/-- A round up to its real trigger at clock 100. -/
def readyTrace : List Ev := [Ev.start false, Ev.waitFires 100]

/-- A round interrupted by an early click at clock 50. -/
def earlyTrace : List Ev := [Ev.start false, Ev.click 50]

/-! ## Helper lemmas -/

lemma withRanksGo_cons (sc : α → Int) (rank i : Nat) (prev : Option Int)
    (e : α) (rest : List α) :
    withRanksGo sc rank i prev (e :: rest) =
      (⟨e, if 0 < i ∧ some (sc e) ≠ prev then i + 1 else rank⟩ : Ranked α) ::
        withRanksGo sc (if 0 < i ∧ some (sc e) ≠ prev then i + 1 else rank)
          (i + 1) (some (sc e)) rest := rfl

lemma rankAt_cons_zero (r : Ranked α) (rl : List (Ranked α)) :
    rankAt (r :: rl) 0 = r.rank := by
  simp [rankAt]

lemma rankAt_cons_succ (r : Ranked α) (rl : List (Ranked α)) (j : Nat) :
    rankAt (r :: rl) (j + 1) = rankAt rl j := by
  simp [rankAt]

lemma scoreAt_cons_succ (sc : α → Int) (e : α) (l : List α) (j : Nat) :
    scoreAt sc (e :: l) (j + 1) = scoreAt sc l j := by
  simp [scoreAt]

lemma rankAt_go_zero (sc : α → Int) (rank i : Nat) (prev : Option Int)
    (e : α) (rest : List α) :
    rankAt (withRanksGo sc rank i prev (e :: rest)) 0 =
      if 0 < i ∧ some (sc e) ≠ prev then i + 1 else rank := by
  simp [withRanksGo, rankAt]

/-- The recurrence obeyed by the running rank of `withRanks`: past the
head, a row's rank is its 1-based position when its score changed, and
the previous row's rank otherwise. -/
lemma rankAt_go_succ (sc : α → Int) :
    ∀ (l : List α) (rank i : Nat) (prev : Option Int) (j : Nat),
      j + 1 < l.length →
      rankAt (withRanksGo sc rank i prev l) (j + 1) =
        if scoreAt sc l (j + 1) ≠ scoreAt sc l j then i + j + 2
        else rankAt (withRanksGo sc rank i prev l) j := by
  intro l
  induction l with
  | nil => intro rank i prev j h; simp at h
  | cons e rest ih =>
    intro rank i prev j h
    cases j with
    | zero =>
      cases rest with
      | nil => simp at h
      | cons e1 rest2 =>
        rw [withRanksGo_cons, rankAt_cons_succ, rankAt_go_zero,
          rankAt_cons_zero, scoreAt_cons_succ]
        simp [scoreAt, rankAt]
    | succ k =>
      have hk : k + 1 < rest.length := by
        simpa using h
      simp only [withRanksGo_cons, rankAt_cons_succ, scoreAt_cons_succ]
      rw [ih _ _ _ k hk]
      have harith : i + 1 + k + 2 = i + (k + 1) + 2 := by omega
      rw [harith]

/-- The head of a ranked non-empty window always carries rank 1. -/
lemma rankAt_withRanks_zero (sc : α → Int) (docs : List α)
    (hne : docs ≠ []) : rankAt (withRanks sc docs) 0 = 1 := by
  cases docs with
  | nil => exact absurd rfl hne
  | cons e rest => simp [withRanks, rankAt_go_zero]

/-- `List.any` of a decided predicate is the decision of the
existential; bridges the source's `docs.some(...)` to the spec's "some
entry satisfies ...". -/
lemma any_eq_decide (l : List α) (p : α → Prop) [DecidablePred p] :
    l.any (fun a => decide (p a)) = decide (∃ a ∈ l, p a) := by
  by_cases h : ∃ a ∈ l, p a
  · rw [decide_eq_true h]
    simpa [List.any_eq_true] using h
  · rw [decide_eq_false h]
    simpa [List.any_eq_false] using h

lemma reach_foldl (evs : List Ev) :
    ∀ g : Game, Reach g → Reach (evs.foldl step g) := by
  induction evs with
  | nil => intro g hg; exact hg
  | cons e rest ih => intro g hg; exact ih (step g e) (Reach.more g e hg)

lemma reach_run (evs : List Ev) : Reach (run evs) :=
  reach_foldl evs initGame Reach.base

/-- Preservation of "`changeAt` is set whenever the machine is
`ready`": the only transition into `ready` is `_triggerChange`, which
writes `changeAt`, and no transition ever erases it. -/
lemma step_pres_changeAt (g : Game) (e : Ev)
    (ih : g.state = GState.ready → g.changeAt.isSome = true) :
    (step g e).state = GState.ready → (step g e).changeAt.isSome = true := by
  cases e with
  | start hasFake =>
      cases hasFake <;> simp [step, beginRound, clearTimers]
  | click now =>
      simp only [step, onGameClick]
      split
      · simp [tooEarly, clearTimers]
      · split
        · simp [recordScore, clearTimers]
        · exact ih
  | fakeFires =>
      simp only [step]
      split
      · split
        · simp_all
        · simpa using ih
      · exact ih
  | waitFires now =>
      simp only [step]
      split
      · split
        · simp [triggerChange]
        · simpa using ih
      · exact ih
  | revertFires =>
      simp only [step]
      split
      · simpa using ih
      · exact ih
  | pauseFires hasFake =>
      simp only [step]
      split
      · exact ih
      · cases hasFake <;> simp [beginRound, clearTimers]
      · split
        · simpa [showResults] using ih
        · cases hasFake <;> simp [beginRound, clearTimers]
  | reset =>
      simp [step, clearTimers]

/-- In every reachable machine state, `changeAt` is set whenever the
machine is in `ready`. -/
lemma reach_changeAt {g : Game} (h : Reach g) :
    g.state = GState.ready → g.changeAt.isSome = true := by
  induction h with
  | base => simp [initGame]
  | more g e _ ih => exact step_pres_changeAt g e ih

/-- Preservation of "a pause continuation is pending only in `paused`":
the pause timer is armed only by `_tooEarly` and `_recordScore` (both
enter `paused`), and every transition that leaves `paused` clears or
consumes it. -/
lemma step_pres_pause (g : Game) (e : Ev)
    (ih : g.pendingPause.isSome = true → g.state = GState.paused) :
    (step g e).pendingPause.isSome = true →
      (step g e).state = GState.paused := by
  cases e with
  | start hasFake =>
      cases hasFake <;> simp [step, beginRound, clearTimers]
  | click now =>
      simp only [step, onGameClick]
      split
      · simp [tooEarly, clearTimers]
      · split
        · simp [recordScore, clearTimers]
        · exact ih
  | fakeFires =>
      simp only [step]
      split
      · split
        · intro hp
          simp only at hp
          simp_all
        · simpa using ih
      · exact ih
  | waitFires now =>
      simp only [step]
      split
      · split
        · intro hp
          simp only [triggerChange] at hp ⊢
          simp_all
        · simpa using ih
      · exact ih
  | revertFires =>
      simp only [step]
      split
      · simpa using ih
      · exact ih
  | pauseFires hasFake =>
      simp only [step]
      split
      · exact ih
      · cases hasFake <;> simp [beginRound, clearTimers]
      · split
        · simp [showResults]
        · cases hasFake <;> simp [beginRound, clearTimers]
  | reset =>
      simp [step, clearTimers]

/-- In every reachable machine state, a pending pause continuation
implies the machine is in `paused`: the pause callback can only fire in
the pause it was scheduled for. -/
lemma reach_pendingPause {g : Game} (h : Reach g) :
    g.pendingPause.isSome = true → g.state = GState.paused := by
  induction h with
  | base => simp [initGame]
  | more g e _ ih => exact step_pres_pause g e ih

/-! ## The claims -/

/-- C1: for every non-empty sequence of entries ascending by score,
`withRanks` gives the first entry rank 1, and gives each subsequent
entry its 1-based position as rank when its score differs from the
preceding entry's score and the preceding entry's rank otherwise; in
particular over scores `[10, 10, 20, 30]` the ranks are
`[1, 1, 3, 4]`. -/
theorem withRanks_standard_ranking (docs : List Entry) (j : Nat)
    (hne : docs ≠ [])
    (_hasc : List.Chain' (fun a b : Entry => a.score ≤ b.score) docs)
    (hj : j + 1 < docs.length) :
    rankAt (withRanks Entry.score docs) 0 = 1 ∧
    rankAt (withRanks Entry.score docs) (j + 1) =
      (if scoreAt Entry.score docs (j + 1) ≠ scoreAt Entry.score docs j
       then j + 2 else rankAt (withRanks Entry.score docs) j) ∧
    (withRanks Entry.score exampleDocs).map Ranked.rank = [1, 1, 3, 4] := by
  refine ⟨rankAt_withRanks_zero _ _ hne, ?_, by decide⟩
  have h := rankAt_go_succ Entry.score docs 1 0 none j hj
  simpa [withRanks] using h

/-- Witness for C1 at the spec's example window and position `j = 1`. -/
theorem withRanks_standard_ranking_witness :
    rankAt (withRanks Entry.score exampleDocs) 0 = 1 ∧
    rankAt (withRanks Entry.score exampleDocs) 2 = 3 ∧
    (withRanks Entry.score exampleDocs).map Ranked.rank = [1, 1, 3, 4] := by
  obtain ⟨h1, h2, h3⟩ :=
    withRanks_standard_ranking exampleDocs 1 (by decide)
      (by norm_num [exampleDocs, List.chain'_cons, List.chain'_singleton])
      (by decide)
  refine ⟨h1, ?_, h3⟩
  rw [h2]
  decide

/-- C2: against a window of at most `SIZE` ascending entries, `peek`
returns no rank exactly when the window is saturated and the query
score is strictly worse than the window's worst score; otherwise the
rank is 1 plus the number of window entries strictly better than the
query score, with a tie flagged exactly when some window entry matches
the query score — in particular an empty window ranks any score 1,
untied. -/
theorem peek_rank_spec (docs : List Entry) (q : Int)
    (hlen : docs.length ≤ SIZE)
    (_hasc : List.Chain' (fun a b : Entry => a.score ≤ b.score) docs) :
    peek (some docs) q =
      (if docs.length = SIZE ∧ worstScore docs < q then none
       else
         some ⟨docs.countP (fun d => decide (d.score < q)) + 1,
               decide (∃ d ∈ docs, d.score = q)⟩) ∧
    peek (some ([] : List Entry)) q = some ⟨1, false⟩ := by
  constructor
  · show peekCore docs q = _
    unfold peekCore
    by_cases hc : docs.length = SIZE ∧ worstScore docs < q
    · rw [if_pos ⟨le_of_eq hc.1.symm, hc.2⟩, if_pos hc]
    · rw [if_neg (fun h => hc ⟨Nat.le_antisymm hlen h.1, h.2⟩), if_neg hc]
      simp only [Option.some.injEq, RankResult.mk.injEq]
      constructor
      · rw [List.countP_eq_length_filter]
      · exact any_eq_decide docs (fun d => d.score = q)
  · simp [peek, peekCore, SIZE, worstScore]

/-- Witness for C2: scenario D's window `[100, 100, 150]` ranks a 120
at position 3 untied, and the empty window ranks 250 first. -/
theorem peek_rank_spec_witness :
    peek (some windowD) 120 = some ⟨3, false⟩ ∧
    peek (some ([] : List Entry)) 250 = some ⟨1, false⟩ := by
  refine ⟨?_, (peek_rank_spec [] 250 (by decide) List.chain'_nil).2⟩
  rw [(peek_rank_spec windowD 120 (by decide)
    (by norm_num [windowD, List.chain'_cons, List.chain'_singleton])).1]
  decide

/-- C3: `submit` hands the freshly inserted id and the re-queried
top-`SIZE` window to the rank computation; the result is `null` exactly
when the new id is missing from the window, and otherwise ranks the
submitted score 1 past the count of strictly better window entries,
tied exactly when more than one window entry (the new one included)
carries the submitted score. -/
theorem submit_rank_spec (docs : List SEntry) (newId : Nat) (nm : String)
    (score : Int) :
    submit (some newId) (some docs) nm score =
      (if ∃ d ∈ docs, d.ts = newId then
         some ⟨docs.countP (fun d => decide (d.score < score)) + 1,
               decide (1 < docs.countP (fun d => decide (d.score = score))),
               newId⟩
       else none) := by
  have hstep : submit (some newId) (some docs) nm score =
      (if docs.any (fun d => decide (d.ts = newId)) then
         some ⟨(docs.filter (fun d => decide (d.score < score))).length + 1,
               decide (1 < (docs.filter (fun d => decide (d.score = score))).length),
               newId⟩
       else none) := rfl
  rw [hstep, any_eq_decide docs (fun d => d.ts = newId)]
  by_cases h : ∃ d ∈ docs, d.ts = newId
  · simp [h, List.countP_eq_length_filter]
  · simp [h]

/-- C9: a failed backing-store call (query or insert) surfaces only as
the no-data result: `peek` and `submit` return `null`, `getTop` the
empty list; the operations are total, so nothing is re-raised, and each
consults its backend outcome exactly once, so nothing is retried. -/
theorem leaderboard_failures_absorbed (q score : Int) (n : Nat)
    (nm : String) (qres : Option (List SEntry)) (freshId : Nat) :
    peek none q = none ∧
    submit none qres nm score = none ∧
    submit (some freshId) none nm score = none ∧
    getTop none n = [] :=
  ⟨rfl, rfl, rfl, rfl⟩

/-- C4: a click while `waiting` (an early click) moves the machine to
`paused`, appends nothing to the recorded times, and arms the retry
continuation; when that continuation fires, the same round index is
begun again (`roundNum--` then `_beginRound`'s `roundNum++`). -/
theorem earlyClick_retries_same_round (g : Game) (now : ℚ) (hf : Bool)
    (h : g.state = GState.waiting) :
    (step g (Ev.click now)).state = GState.paused ∧
    (step g (Ev.click now)).scores = g.scores ∧
    (step g (Ev.click now)).pendingPause = some PauseKind.retry ∧
    (step (step g (Ev.click now)) (Ev.pauseFires hf)).state =
      GState.waiting ∧
    (step (step g (Ev.click now)) (Ev.pauseFires hf)).roundNum =
      g.roundNum := by
  cases hf <;>
    refine ⟨?_, ?_, ?_, ?_, ?_⟩ <;>
      simp [step, onGameClick, h, tooEarly, clearTimers, beginRound]

/-- Witness for C4: the early click of `earlyTrace`, retried. -/
theorem earlyClick_retries_same_round_witness :
    (step (run [Ev.start false]) (Ev.click 50)).state = GState.paused ∧
    (step (run [Ev.start false]) (Ev.click 50)).scores =
      (run [Ev.start false]).scores ∧
    (step (run [Ev.start false]) (Ev.click 50)).pendingPause =
      some PauseKind.retry ∧
    (step (step (run [Ev.start false]) (Ev.click 50))
        (Ev.pauseFires false)).state = GState.waiting ∧
    (step (step (run [Ev.start false]) (Ev.click 50))
        (Ev.pauseFires false)).roundNum = (run [Ev.start false]).roundNum :=
  earlyClick_retries_same_round (run [Ev.start false]) 50 false (by decide)

/-- C5: a click while `ready` appends exactly the rounded elapsed time
`round (now - changeAt)` to the recorded times and moves the machine to
`paused`; when the armed continuation fires, the machine either begins
round `roundNum + 1`, or — once the recorded times have reached
`ROUNDS` — shows the results (the session average over the recorded
times) instead. -/
theorem readyClick_records_and_advances (g : Game) (now t : ℚ) (hf : Bool)
    (hs : g.state = GState.ready) (hc : g.changeAt = some t) :
    (step g (Ev.click now)).state = GState.paused ∧
    (step g (Ev.click now)).scores = g.scores ++ [round (now - t)] ∧
    (step g (Ev.click now)).pendingPause = some PauseKind.advance ∧
    (step (step g (Ev.click now)) (Ev.pauseFires hf)).state =
      (if ROUNDS ≤ g.scores.length + 1 then GState.paused
       else GState.waiting) ∧
    (step (step g (Ev.click now)) (Ev.pauseFires hf)).roundNum =
      (if ROUNDS ≤ g.scores.length + 1 then g.roundNum
       else g.roundNum + 1) ∧
    (step (step g (Ev.click now)) (Ev.pauseFires hf)).resultsShown =
      (if ROUNDS ≤ g.scores.length + 1 then true else g.resultsShown) ∧
    (step (step g (Ev.click now)) (Ev.pauseFires hf)).avg =
      (if ROUNDS ≤ g.scores.length + 1 then
         averageOf (g.scores ++ [round (now - t)])
       else g.avg) := by
  have h1 : step g (Ev.click now) = recordScore (round (now - t)) g := by
    simp [step, onGameClick, hs, hc]
  by_cases hlen : ROUNDS ≤ g.scores.length + 1 <;>
    cases hf <;>
      refine ⟨?_, ?_, ?_, ?_, ?_, ?_, ?_⟩ <;>
        rw [h1] <;>
          simp [recordScore, clearTimers, step, beginRound, showResults,
            hlen, List.length_append]

/-- Witness for C5: the scored click of `pausedTrace` (trigger at
clock 100, click at clock 300), which records round 1 of 5. -/
theorem readyClick_records_and_advances_witness :
    (step (run readyTrace) (Ev.click 300)).state = GState.paused ∧
    (step (run readyTrace) (Ev.click 300)).scores =
      (run readyTrace).scores ++ [round ((300 : ℚ) - 100)] ∧
    (step (run readyTrace) (Ev.click 300)).pendingPause =
      some PauseKind.advance ∧
    (step (step (run readyTrace) (Ev.click 300))
        (Ev.pauseFires false)).state =
      (if ROUNDS ≤ (run readyTrace).scores.length + 1 then GState.paused
       else GState.waiting) ∧
    (step (step (run readyTrace) (Ev.click 300))
        (Ev.pauseFires false)).roundNum =
      (if ROUNDS ≤ (run readyTrace).scores.length + 1 then
         (run readyTrace).roundNum
       else (run readyTrace).roundNum + 1) ∧
    (step (step (run readyTrace) (Ev.click 300))
        (Ev.pauseFires false)).resultsShown =
      (if ROUNDS ≤ (run readyTrace).scores.length + 1 then true
       else (run readyTrace).resultsShown) ∧
    (step (step (run readyTrace) (Ev.click 300))
        (Ev.pauseFires false)).avg =
      (if ROUNDS ≤ (run readyTrace).scores.length + 1 then
         averageOf ((run readyTrace).scores ++ [round ((300 : ℚ) - 100)])
       else (run readyTrace).avg) :=
  readyClick_records_and_advances (run readyTrace) 300 100 false
    (by decide) (by decide)

/-- C6: the session average is the integer nearest the arithmetic mean
of the recorded times (within 1/2 of it); running the spec's scenario A
— five scored rounds with elapsed times 180, 150, 220, 190, 160 —
records exactly those times, finalizes the session after the fifth
round, and shows average 180. -/
theorem session_average_is_rounded_mean (s : List Int) (_hne : s ≠ []) :
    |((averageOf s : Int) : ℚ) - (s.sum : ℚ) / (s.length : ℚ)| ≤ 1 / 2 ∧
    (run scenarioA).scores = [180, 150, 220, 190, 160] ∧
    (run scenarioA).avg = 180 ∧
    (run scenarioA).resultsShown = true ∧
    (run scenarioA).roundNum = 5 := by
  refine ⟨?_, by decide, by decide, by decide, by decide⟩
  have h := abs_sub_round ((s.sum : ℚ) / (s.length : ℚ))
  rw [abs_sub_comm] at h
  simpa [averageOf] using h

/-- Witness for C6 at the recorded times of scenario A. -/
theorem session_average_is_rounded_mean_witness :
    |((averageOf [180, 150, 220, 190, 160] : Int) : ℚ) -
        (([180, 150, 220, 190, 160] : List Int).sum : ℚ) /
          (([180, 150, 220, 190, 160] : List Int).length : ℚ)| ≤ 1 / 2 ∧
    (run scenarioA).scores = [180, 150, 220, 190, 160] ∧
    (run scenarioA).avg = 180 ∧
    (run scenarioA).resultsShown = true ∧
    (run scenarioA).roundNum = 5 :=
  session_average_is_rounded_mean [180, 150, 220, 190, 160] (by decide)

/-- C7 counterexample: `changeAt` is *not* set only in `ready`.  After
start, real trigger at clock 100 and a scored click at clock 300, the
machine sits in `paused` with `changeAt` still holding 100 — the click
handler never erases it, contradicting "`changeAt` is unset in the
`paused` state". -/
theorem changeAt_set_while_paused :
    (run pausedTrace).state = GState.paused ∧
    (run pausedTrace).changeAt = some 100 := by
  decide

/-- C7 (amended): in every reachable machine state, `changeAt` is set
whenever the machine is in `ready`, and it starts out unset; the
converse direction fails because no transition ever clears `changeAt`,
so after the first real trigger it stays set through `paused`,
`waiting` and `idle`. -/
theorem ready_has_changeAt (g : Game) (hr : Reach g)
    (hs : g.state = GState.ready) :
    g.changeAt.isSome = true ∧ initGame.changeAt = none :=
  ⟨reach_changeAt hr hs, rfl⟩

/-- Witness for C7 at the machine state reached by `readyTrace`. -/
theorem ready_has_changeAt_witness :
    (run readyTrace).changeAt.isSome = true ∧
    initGame.changeAt = none :=
  ready_has_changeAt (run readyTrace) (reach_run readyTrace) (by decide)

/-- C8 counterexample: not every timer callback re-checks that the
state is still `waiting` before acting.  The pause continuation armed
by the scored click of `pausedTrace` fires with the machine in `paused`
(not `waiting`) and still acts, beginning the next round — so the
"re-check `waiting`, else no-op" rule does not hold for the
`_pauseTimer` callbacks of `_tooEarly`/`_recordScore`. -/
theorem pauseTimer_acts_outside_waiting :
    (run pausedTrace).state ≠ GState.waiting ∧
    (run pausedTrace).pendingPause = some PauseKind.advance ∧
    (step (run pausedTrace) (Ev.pauseFires false)).state =
      GState.waiting := by
  decide

/-- C8 (amended): a stale timer callback never changes the machine's
state or produces a trigger.  A cancelled callback (cleared flag) is
the identity; the fake-flash, real-trigger and flash-revert callbacks
re-check `state === 'waiting'` and leave every machine field untouched
when the round has moved on; and the pause callback — which does not
re-check — can never be stale: in every reachable state it is pending
only while the machine is still in the `paused` phase that armed it. -/
theorem staleTimer_inert (g : Game) (now : ℚ) (hf : Bool)
    (hr : Reach g) (hs : g.state ≠ GState.waiting) :
    machineView (step g Ev.fakeFires) = machineView g ∧
    machineView (step g (Ev.waitFires now)) = machineView g ∧
    machineView (step g Ev.revertFires) = machineView g ∧
    (g.pendingFake = true ∨ step g Ev.fakeFires = g) ∧
    (g.pendingWait = true ∨ step g (Ev.waitFires now) = g) ∧
    (g.pendingRevert = true ∨ step g Ev.revertFires = g) ∧
    (step g (Ev.pauseFires hf) = g ∨ g.state = GState.paused) := by
  refine ⟨?_, ?_, ?_, ?_, ?_, ?_, ?_⟩
  · by_cases hp : g.pendingFake = true <;>
      simp [step, hp, hs, machineView]
  · by_cases hp : g.pendingWait = true <;>
      simp [step, hp, hs, machineView]
  · by_cases hp : g.pendingRevert = true <;>
      simp [step, hp, machineView]
  · by_cases hp : g.pendingFake = true
    · exact Or.inl hp
    · refine Or.inr ?_
      simp [step, hp]
  · by_cases hp : g.pendingWait = true
    · exact Or.inl hp
    · refine Or.inr ?_
      simp [step, hp]
  · by_cases hp : g.pendingRevert = true
    · exact Or.inl hp
    · refine Or.inr ?_
      simp [step, hp]
  · cases hpp : g.pendingPause with
    | none => exact Or.inl (by simp [step, hpp])
    | some k => exact Or.inr (reach_pendingPause hr (by simp [hpp]))

/-- Witness for C8 at the `paused` machine state reached by
`earlyTrace` (an early click, no timers pending). -/
theorem staleTimer_inert_witness :
    machineView (step (run earlyTrace) Ev.fakeFires) =
      machineView (run earlyTrace) ∧
    machineView (step (run earlyTrace) (Ev.waitFires 0)) =
      machineView (run earlyTrace) ∧
    machineView (step (run earlyTrace) Ev.revertFires) =
      machineView (run earlyTrace) ∧
    ((run earlyTrace).pendingFake = true ∨
      step (run earlyTrace) Ev.fakeFires = run earlyTrace) ∧
    ((run earlyTrace).pendingWait = true ∨
      step (run earlyTrace) (Ev.waitFires 0) = run earlyTrace) ∧
    ((run earlyTrace).pendingRevert = true ∨
      step (run earlyTrace) Ev.revertFires = run earlyTrace) ∧
    (step (run earlyTrace) (Ev.pauseFires true) = run earlyTrace ∨
      (run earlyTrace).state = GState.paused) :=
  staleTimer_inert (run earlyTrace) 0 true (reach_run earlyTrace)
    (by decide)

/-- C10: once the leaderboard submission action has run with a
non-empty trimmed name, the `_submitted` latch and the disabled save
control are set before the store call is awaited, the latch survives
the store call's completion whatever its outcome `r` — including the
failed commit `r = none` — and any later invocation of the action bails
out without touching the machine, so a failed commit cannot be
retried. -/
theorem submit_latch_no_retry (g : Game) (nm nm2 : String)
    (r : Option SubmitResult) (h : g.submitted = false)
    (hn : jsTrim nm ≠ "") :
    (submitBegin g nm).2 = true ∧
    (submitBegin g nm).1.submitted = true ∧
    (submitBegin g nm).1.saveDisabled = true ∧
    (submitFinish (submitBegin g nm).1 r).submitted = true ∧
    submitBegin (submitFinish (submitBegin g nm).1 r) nm2 =
      (submitFinish (submitBegin g nm).1 r, false) := by
  refine ⟨?_, ?_, ?_, ?_, ?_⟩ <;>
    simp [submitBegin, submitFinish, h, hn]

/-- Witness for C10: a fresh instance, name "ann", and a *failed* store
submission (`r = none`); the second call (name "bob") is a no-op. -/
theorem submit_latch_no_retry_witness :
    (submitBegin initGame "ann").2 = true ∧
    (submitBegin initGame "ann").1.submitted = true ∧
    (submitBegin initGame "ann").1.saveDisabled = true ∧
    (submitFinish (submitBegin initGame "ann").1 none).submitted = true ∧
    submitBegin (submitFinish (submitBegin initGame "ann").1 none) "bob" =
      (submitFinish (submitBegin initGame "ann").1 none, false) :=
  submit_latch_no_retry initGame "ann" "bob" none (by decide) (by decide)

end DontBlink
